import Mathlib

/-!
Verification of the geolocation cache/lookup engine of hubble-world-ts.

The repository ships two near-duplicate revisions of `geolocate.ts`; the
embedding below models the revision in `src/unnamed/part_001` under the
namespace `IpGeolocator`, and the materially different loader methods of the
revision in `src/unnamed/part_000` under the namespace `IpGeolocatorV0`.

Modelling conventions:
- The JS `Map<string, Location>` is an insertion-ordered association list
  with unique keys; `mapSet` mirrors `Map.set` (overwrite in place, append
  when fresh), `mapHas`/`mapGet`/`mapKeys` mirror `has`/`get`/`keys`.
- The network is an oracle `Net : String → NetResponse` giving, per target
  IP, either a transport-level failure (the `resp.on(error, reject)` path)
  or a response body that either parses into a `Location` or does not
  (the `JSON.parse` try/catch inside the `end` handler).
- A JS promise rejection / thrown exception is `Except.error`; a value
  resolved normally (including JS `Error` objects returned as values) is
  `Except.ok`.  Engine-generated TypeError texts are modelled by fixed
  descriptive strings; only thrown-vs-returned matters to the theorems.
- Every operation additionally reports `netCalls`, the list of IPs for
  which `https.get` was actually invoked, so that claims about "zero calls
  reaching the transport layer" are statable.
- Concurrency: execution is single-threaded cooperative; `Promise.all` is
  modelled as a left-to-right fold that threads the mutable state through
  every constituent lookup and rejects iff some constituent rejects.
-/

/-- The `Location` record of `geolocate.ts` (the unit of (de)serialization
and of the remote response payload).  JSON numbers are modelled as `Rat`. -/
structure Location where
  ip : String
  country_code : String
  country_name : String
  region_name : String
  city_name : String
  latitude : Rat
  longitude : Rat
  zip_code : String
  time_zone : String
  asn : String
  as : String
  is_proxy : Bool
deriving DecidableEq

/-- JS `Map.has`. -/
def mapHas (m : List (String × Location)) (k : String) : Bool :=
  m.any fun p => p.1 == k

/-- JS `Map.get` (also used for post-`JSON.parse` object indexing, whose
keys are unique). -/
def mapGet (m : List (String × Location)) (k : String) : Option Location :=
  (m.find? fun p => p.1 == k).map Prod.snd

/-- JS `Map.set`: overwrite in place if the key is present, else append. -/
def mapSet (m : List (String × Location)) (k : String) (v : Location) :
    List (String × Location) :=
  if mapHas m k then m.map fun p => if p.1 == k then (k, v) else p
  else m ++ [(k, v)]

/-- JS `Map.keys` (insertion order). -/
def mapKeys (m : List (String × Location)) : List String :=
  m.map Prod.fst

/-- Outcome of one `https.get` for a given IP: either the response stream
emits `error` (the code rejects), or the body arrives and `JSON.parse`
either yields a `Location` or throws (caught, yielding a parse error). -/
inductive NetResponse where
  | transportError (msg : String)
  | body (parsed : Option Location)
deriving DecidableEq

/-- The transport-layer oracle, keyed by the target IP. -/
def Net : Type := String → NetResponse

/-- A settled value of `fetchLocation`/`lookup`: the JS code resolves with
either a `Location` or an `Error` object carrying a message. -/
inductive LookupResult where
  | loc (l : Location)
  | err (msg : String)
deriving DecidableEq

/-- The private fields of an `IpGeolocator` instance. -/
structure GeoState where
  ipLocationMap : List (String × Location)
  dataFilePath : String
  apiKey : String
  enableAPI : Bool
  err : Option String
deriving DecidableEq

/-- Result of running one method: the instance state afterwards, the
settled-or-rejected value, and the IPs for which `https.get` was issued. -/
structure StepResult (α : Type) where
  state : GeoState
  result : α
  netCalls : List String

/-- On-disk store file content once `JSON.parse` succeeded: either the
array shape (a sequence of single-key — in general multi-key — objects)
or the flat object shape. -/
inductive StoreFile where
  | arrayShape (records : List (List (String × Location)))
  | objectShape (jsonData : List (String × Location))
deriving DecidableEq

/-- What `existsSync`/`readFileSync`/`JSON.parse` find at the data path. -/
inductive FileContent where
  | absent
  | malformed
  | parsed (jsonData : StoreFile)
deriving DecidableEq

/-- Splitting a character list at every dot, mirroring `String.split('.')`
semantics (structurally recursive so that concrete inputs evaluate in the
kernel). -/
def splitOnDot : List Char → List (List Char)
  | [] => [[]]
  | c :: rest =>
    if c = '.' then [] :: splitOnDot rest
    else
      match splitOnDot rest with
      | [] => [[c]]
      | g :: gs => (c :: g) :: gs

/-- The whitespace class of `String.prototype.trim`, restricted to the
ASCII whitespace characters (the only ones relevant to the store files). -/
def isJsWhitespace (c : Char) : Bool :=
  c = ' ' || c = '\t' || c = '\n' || c = '\r'

/-- JS `String.prototype.trim`: drop whitespace from both ends. -/
def jsTrim (s : String) : String :=
  ⟨((s.data.dropWhile isJsWhitespace).reverse.dropWhile isJsWhitespace).reverse⟩

namespace IpGeolocator

/-- The test `isValidIp` of part_001 runs on the regex
`^\d-1,3-(\.\d-1,3-)-3-$` (braces written as dashes here), i.e. it accepts
exactly the strings made of four dot-separated groups of one to three
ASCII digits, with no octet range check. -/
def isValidIp (ip : String) : Bool :=
  let parts := splitOnDot ip.data
  parts.length == 4 &&
    parts.all fun p => 1 ≤ p.length && p.length ≤ 3 && p.all Char.isDigit

/-- `update`: `this.ipLocationMap.set(ip, location)`. -/
def update (st : GeoState) (ip : String) (location : Location) : GeoState :=
  { st with ipLocationMap := mapSet st.ipLocationMap ip location }

/-- `fetchLocation` of part_001: syntax check, API-mode check, then a
single `https.get`; transport errors reject, parse failures resolve with
an `Error` value, successes merge into the map before resolving. -/
def fetchLocation (net : Net) (st : GeoState) (ip : String) :
    StepResult (Except String LookupResult) :=
  if !isValidIp ip then ⟨st, .ok (.err "Invalid IP address."), []⟩
  else if !st.enableAPI then ⟨st, .ok (.err "API disabled."), []⟩
  else
    match net ip with
    | .transportError msg => ⟨st, .error msg, [ip]⟩
    | .body none => ⟨st, .ok (.err "Failed to parse JSON response."), [ip]⟩
    | .body (some location) => ⟨update st ip location, .ok (.loc location), [ip]⟩

/-- `lookup` of part_001: cache hit returns the stored value, a
present-but-undefined entry returns an `Error` value, a miss with the API
disabled returns an `Error` value, otherwise delegate to `fetchLocation`. -/
def lookup (net : Net) (st : GeoState) (ip : String) :
    StepResult (Except String LookupResult) :=
  if mapHas st.ipLocationMap ip then
    match mapGet st.ipLocationMap ip with
    | some location => ⟨st, .ok (.loc location), []⟩
    | none => ⟨st, .ok (.err "Failed to get location"), []⟩
  else if !st.enableAPI then ⟨st, .ok (.err "Failed to get location"), []⟩
  else fetchLocation net st ip

/-- `lookupAll` of part_001: `Promise.all(ipAddresses.map(ip => lookup ip))`.
All constituent lookups run (threading their side effects); the aggregate
resolves with the positionally aligned list when all resolve, and rejects
when any constituent rejects. -/
def lookupAll (net : Net) (st : GeoState) (ipAddresses : List String) :
    StepResult (Except String (List LookupResult)) :=
  match ipAddresses with
  | [] => ⟨st, .ok [], []⟩
  | ip :: rest =>
    let r1 := lookup net st ip
    let rrest := lookupAll net r1.state rest
    ⟨rrest.state,
      match r1.result, rrest.result with
      | .ok v, .ok vs => .ok (v :: vs)
      | .error e, _ => .error e
      | .ok _, .error e => .error e,
      r1.netCalls ++ rrest.netCalls⟩

/-- Result of `mergeAndLookupLocations`: final state, the returned key
iterator (or a rejection), the list actually passed to `lookupAll`, and the
IPs that reached the transport layer. -/
structure MergeResult where
  state : GeoState
  result : Except String (List String)
  lookedUp : List String
  netCalls : List String

/-- `mergeAndLookupLocations` of part_001: when the API is enabled, filter
the batch down to the addresses not already cached and, if that subset is
non-empty, await `lookupAll` on it (discarding its value); finally return
`this.ipLocationMap.keys()`. -/
def mergeAndLookupLocations (net : Net) (st : GeoState)
    (ipAddresses : List String) : MergeResult :=
  if st.enableAPI then
    let ipAddressesToLookup :=
      ipAddresses.filter fun ip => !mapHas st.ipLocationMap ip
    if ipAddressesToLookup.length != 0 then
      let r := lookupAll net st ipAddressesToLookup
      match r.result with
      | .ok _ =>
        ⟨r.state, .ok (mapKeys r.state.ipLocationMap), ipAddressesToLookup,
          r.netCalls⟩
      | .error e => ⟨r.state, .error e, ipAddressesToLookup, r.netCalls⟩
    else ⟨st, .ok (mapKeys st.ipLocationMap), [], []⟩
  else ⟨st, .ok (mapKeys st.ipLocationMap), [], []⟩

/-- `size`: `this.ipLocationMap.size`. -/
def size (st : GeoState) : Nat :=
  st.ipLocationMap.length

/-- `getIPEntries`: `this.ipLocationMap.keys()`. -/
def getIPEntries (st : GeoState) : List String :=
  mapKeys st.ipLocationMap

/-- `hasError`: `this.err !== undefined`. -/
def hasError (st : GeoState) : Bool :=
  st.err.isSome

/-- `getError`: `this.err`. -/
def getError (st : GeoState) : Option String :=
  st.err

/-- `save` of part_001: `JSON.stringify(Object.fromEntries(this.ipLocationMap))`
written to the data path — i.e. the object shape holding exactly the
in-memory entries in insertion order. -/
def save (st : GeoState) : StoreFile :=
  .objectShape st.ipLocationMap

/-- Recursive worker for `loadFromArray` of part_001.  For each record the
code takes `Object.keys(record)[0].trim()` as the IP (throwing a TypeError
when the record has no keys) and indexes the record at the trimmed key;
it then logs `location.latitude` unconditionally, which throws a TypeError
when that indexing came back undefined; otherwise it sets the entry. -/
def loadFromArrayGo (records : List (List (String × Location)))
    (m : List (String × Location)) :
    Except String (List (String × Location)) :=
  match records with
  | [] => .ok m
  | record :: rest =>
    match record with
    | [] => .error "TypeError: cannot read trim of undefined"
    | (k0, _) :: _ =>
      let ip := jsTrim k0
      match mapGet record ip with
      | none => .error "TypeError: cannot read latitude of undefined"
      | some location => loadFromArrayGo rest (mapSet m ip location)

/-- `loadFromArray` of part_001: reset the map, then process each record. -/
def loadFromArray (records : List (List (String × Location))) :
    Except String (List (String × Location)) :=
  loadFromArrayGo records []

/-- Recursive worker for `loadFromObject` of part_001: iterate
`Object.keys(jsonData)`, trim each key, re-index the whole object at the
trimmed key, and log `location.latitude` unconditionally — a TypeError is
thrown when the trimmed key is not a property of the object. -/
def loadFromObjectGo (jsonData : List (String × Location))
    (pending : List (String × Location)) (m : List (String × Location)) :
    Except String (List (String × Location)) :=
  match pending with
  | [] => .ok m
  | (k, _) :: rest =>
    let ip := jsTrim k
    match mapGet jsonData ip with
    | none => .error "TypeError: cannot read latitude of undefined"
    | some location => loadFromObjectGo jsonData rest (mapSet m ip location)

/-- `loadFromObject` of part_001: reset the map, then process each key. -/
def loadFromObject (jsonData : List (String × Location)) :
    Except String (List (String × Location)) :=
  loadFromObjectGo jsonData jsonData []

/-- `load` of part_001: when the API is enabled, a missing or empty
`GEOIP_API_KEY` environment variable makes `load` return (not throw) an
`Error`; otherwise, if the data file exists its parsed JSON is dispatched
on shape.  `Except.error` models an exception escaping `load` (malformed
JSON, or a loader TypeError); `Except.ok` carries the returned error (if
any), the api key field, and the resulting map field. -/
def load (enableAPI : Bool) (env : Option String) (file : FileContent) :
    Except String (Option String × String × List (String × Location)) :=
  if enableAPI && (env == none || env == some "") then
    .ok (some "GEOIP_API_KEY environment variable not set", "", [])
  else
    let apiKey := if enableAPI then env.getD "" else ""
    match file with
    | .absent => .ok (none, apiKey, [])
    | .malformed => .error "SyntaxError: unexpected token, invalid JSON"
    | .parsed (.arrayShape records) =>
      (loadFromArray records).map fun m => (none, apiKey, m)
    | .parsed (.objectShape jsonData) =>
      (loadFromObject jsonData).map fun m => (none, apiKey, m)

/-- The constructor of part_001: store the configuration, run `load`, and
record a returned `Error` in `this.err`.  An exception thrown inside
`load` escapes the constructor (`Except.error`). -/
def mkIpGeolocator (dataFilePath : String) (enableAPI : Bool)
    (env : Option String) (file : FileContent) : Except String GeoState :=
  match load enableAPI env file with
  | .error e => .error e
  | .ok (e0, apiKey, m) => .ok ⟨m, dataFilePath, apiKey, enableAPI, e0⟩

end IpGeolocator

namespace IpGeolocatorV0

/-- Recursive worker for `loadFromArray` of part_000: identical to the
part_001 revision except that a missing/undefined record value is guarded
by `if (location)` — the entry is skipped with a `Failed to load`
diagnostic instead of throwing. -/
def loadFromArrayGo (records : List (List (String × Location)))
    (m : List (String × Location)) :
    Except String (List (String × Location)) :=
  match records with
  | [] => .ok m
  | record :: rest =>
    match record with
    | [] => .error "TypeError: cannot read trim of undefined"
    | (k0, _) :: _ =>
      let ip := jsTrim k0
      match mapGet record ip with
      | none => loadFromArrayGo rest m
      | some location => loadFromArrayGo rest (mapSet m ip location)

/-- `loadFromArray` of part_000. -/
def loadFromArray (records : List (List (String × Location))) :
    Except String (List (String × Location)) :=
  loadFromArrayGo records []

/-- Recursive worker for `loadFromObject` of part_000: identical to the
part_001 revision except that an undefined value at the trimmed key is
skipped with a diagnostic instead of throwing. -/
def loadFromObjectGo (jsonData : List (String × Location))
    (pending : List (String × Location)) (m : List (String × Location)) :
    Except String (List (String × Location)) :=
  match pending with
  | [] => .ok m
  | (k, _) :: rest =>
    let ip := jsTrim k
    match mapGet jsonData ip with
    | none => loadFromObjectGo jsonData rest m
    | some location => loadFromObjectGo jsonData rest (mapSet m ip location)

/-- `loadFromObject` of part_000. -/
def loadFromObject (jsonData : List (String × Location)) :
    Except String (List (String × Location)) :=
  loadFromObjectGo jsonData jsonData []

end IpGeolocatorV0

/-- The public operations a caller can run on a constructed cache
(construction excluded), for stating state-evolution invariants. -/
inductive CacheOp where
  | lookupOp (ip : String)
  | lookupAllOp (ips : List String)
  | mergeOp (ips : List String)
  | saveOp

/-- The state after running one public operation (`save` writes the file
and leaves the instance state unchanged). -/
def applyOp (net : Net) (st : GeoState) : CacheOp → GeoState
  | .lookupOp ip => (IpGeolocator.lookup net st ip).state
  | .lookupAllOp ips => (IpGeolocator.lookupAll net st ips).state
  | .mergeOp ips => (IpGeolocator.mergeAndLookupLocations net st ips).state
  | .saveOp => st

/-- The state after running a sequence of public operations. -/
def applyOps (net : Net) (st : GeoState) : List CacheOp → GeoState
  | [] => st
  | op :: rest => applyOps net (applyOp net st op) rest

/-- A sample location record used by concrete witnesses. -/
def sampleLoc : Location :=
  ⟨"1.2.3.4", "US", "United States", "California", "Mountain View",
    10, 20, "94035", "America/Los_Angeles", "AS15169", "Google LLC", false⟩

/-- A second sample location record used by concrete witnesses. -/
def sampleLoc2 : Location :=
  ⟨"5.6.7.8", "DE", "Germany", "Hesse", "Frankfurt",
    50, 8, "60311", "Europe/Berlin", "AS3320", "Deutsche Telekom", false⟩

example : IpGeolocator.isValidIp "1.2.3.4" = true := by decide
example : IpGeolocator.isValidIp "999.1" = false := by decide
example : IpGeolocator.isValidIp "999.999.999.999" = true := by decide
example : IpGeolocator.isValidIp " 1.2.3.4" = false := by decide

/-! ## Association-list (JS `Map`) lemmas -/

theorem mapHas_iff {m : List (String × Location)} {k : String} :
    mapHas m k = true ↔ ∃ p ∈ m, p.1 = k := by
  simp [mapHas, List.any_eq_true, beq_iff_eq]

theorem mapHas_iff_mem {m : List (String × Location)} {k : String} :
    mapHas m k = true ↔ k ∈ mapKeys m := by
  simp only [mapHas, mapKeys, List.any_eq_true, beq_iff_eq, List.mem_map]

theorem mapKeys_mapSet (m : List (String × Location)) (k : String)
    (v : Location) :
    mapKeys (mapSet m k v) =
      if mapHas m k then mapKeys m else mapKeys m ++ [k] := by
  unfold mapSet
  by_cases h : mapHas m k
  · rw [if_pos h, if_pos h]
    simp only [mapKeys, List.map_map]
    apply List.map_congr_left
    intro p _
    by_cases hk : p.1 = k <;> simp [hk]
  · rw [if_neg h, if_neg h]
    simp [mapKeys]

theorem mapHas_mapSet {m : List (String × Location)} {k k' : String}
    {v : Location} :
    mapHas (mapSet m k v) k' = true ↔ k' = k ∨ mapHas m k' = true := by
  rw [mapHas_iff_mem, mapHas_iff_mem, mapKeys_mapSet]
  by_cases h : mapHas m k
  · rw [if_pos h]
    constructor
    · exact Or.inr
    · rintro (rfl | hk)
      · exact mapHas_iff_mem.mp h
      · exact hk
  · rw [if_neg h]
    simp only [List.mem_append, List.mem_singleton]
    exact or_comm

theorem mapHas_mapSet_of {m : List (String × Location)} {k k' : String}
    {v : Location} (h : mapHas m k' = true) :
    mapHas (mapSet m k v) k' = true :=
  mapHas_mapSet.mpr (Or.inr h)

theorem mapHas_mapSet_self {m : List (String × Location)} {k : String}
    {v : Location} : mapHas (mapSet m k v) k = true :=
  mapHas_mapSet.mpr (Or.inl rfl)

theorem length_le_mapSet (m : List (String × Location)) (k : String)
    (v : Location) : m.length ≤ (mapSet m k v).length := by
  unfold mapSet
  split
  · simp
  · simp

theorem mapGet_isSome_of_mapHas {m : List (String × Location)} {k : String}
    (h : mapHas m k = true) : ∃ v, mapGet m k = some v := by
  unfold mapHas at h
  unfold mapGet
  cases hf : m.find? fun p => p.1 == k with
  | none =>
    rw [List.find?_eq_none] at hf
    obtain ⟨p, hp, hpk⟩ := List.any_eq_true.mp h
    exact absurd hpk (by simpa using hf p hp)
  | some p => exact ⟨p.2, by simp⟩

theorem mapHas_eq_false_iff {m : List (String × Location)} {k : String} :
    mapHas m k = false ↔ k ∉ mapKeys m := by
  rw [← Bool.not_eq_true, not_iff_not, mapHas_iff, mapKeys]
  simp [eq_comm]

/-! ## State-evolution lemmas for the part_001 methods -/

namespace IpGeolocator

theorem fetchLocation_state_cases (net : Net) (st : GeoState) (ip : String) :
    (fetchLocation net st ip).state = st ∨
    ∃ loc, isValidIp ip = true ∧ st.enableAPI = true ∧
      net ip = .body (some loc) ∧
      (fetchLocation net st ip).state = update st ip loc := by
  unfold fetchLocation
  by_cases h1 : isValidIp ip
  · by_cases h2 : st.enableAPI
    · cases hn : net ip with
      | transportError msg => left; simp [h1, h2]
      | body p =>
        cases p with
        | none => left; simp [h1, h2]
        | some loc =>
          right
          exact ⟨loc, h1, h2, rfl, by simp [h1, h2]⟩
    · have h2' : st.enableAPI = false := Bool.eq_false_iff.mpr h2
      left; simp [h1, h2']
  · have h1' : isValidIp ip = false := Bool.eq_false_iff.mpr h1
    left; simp [h1']

theorem lookup_state_cases (net : Net) (st : GeoState) (ip : String) :
    (lookup net st ip).state = st ∨
    ∃ loc, isValidIp ip = true ∧ mapHas st.ipLocationMap ip = false ∧
      st.enableAPI = true ∧ net ip = .body (some loc) ∧
      (lookup net st ip).state = update st ip loc := by
  have h0 := fetchLocation_state_cases net st ip
  unfold lookup
  by_cases h : mapHas st.ipLocationMap ip
  · cases hg : mapGet st.ipLocationMap ip
    · left; simp [h, hg]
    · left; simp [h, hg]
  · have h' : mapHas st.ipLocationMap ip = false := Bool.eq_false_iff.mpr h
    by_cases h2 : st.enableAPI
    · rcases h0 with hc | ⟨loc, ha, hb, hn, hupd⟩
      · left
        simpa [h', h2] using hc
      · right
        exact ⟨loc, ha, h', hb, hn, by simpa [h', h2] using hupd⟩
    · have h2' : st.enableAPI = false := Bool.eq_false_iff.mpr h2
      left; simp [h', h2']

theorem lookup_enableAPI (net : Net) (st : GeoState) (ip : String) :
    (lookup net st ip).state.enableAPI = st.enableAPI := by
  rcases lookup_state_cases net st ip with h | ⟨loc, _, _, _, _, h⟩
  · rw [h]
  · rw [h]
    rfl

theorem lookup_grows {net : Net} {st : GeoState} {ip k : String}
    (h : mapHas st.ipLocationMap k = true) :
    mapHas (lookup net st ip).state.ipLocationMap k = true := by
  rcases lookup_state_cases net st ip with hc | ⟨loc, _, _, _, _, hc⟩ <;> rw [hc]
  · exact h
  · exact mapHas_mapSet_of h

theorem lookup_new_valid {net : Net} {st : GeoState} {ip k : String}
    (h : mapHas (lookup net st ip).state.ipLocationMap k = true) :
    mapHas st.ipLocationMap k = true ∨ isValidIp k = true := by
  rcases lookup_state_cases net st ip with hc | ⟨loc, hv, _, _, _, hc⟩ <;>
    rw [hc] at h
  · exact Or.inl h
  · rcases mapHas_mapSet.mp h with rfl | hm
    · exact Or.inr hv
    · exact Or.inl hm

theorem lookup_size_le (net : Net) (st : GeoState) (ip : String) :
    size st ≤ size (lookup net st ip).state := by
  rcases lookup_state_cases net st ip with hc | ⟨loc, _, _, _, _, hc⟩
  · exact le_of_eq (congrArg size hc.symm)
  · rw [hc]
    exact length_le_mapSet _ _ _

theorem lookup_adds {net : Net} {st : GeoState} {ip : String}
    (h2 : st.enableAPI = true) (hv : isValidIp ip = true) (loc : Location)
    (hn : net ip = .body (some loc)) :
    mapHas (lookup net st ip).state.ipLocationMap ip = true := by
  by_cases h : mapHas st.ipLocationMap ip
  · exact lookup_grows h
  · have h' : mapHas st.ipLocationMap ip = false := Bool.eq_false_iff.mpr h
    have hred : lookup net st ip = fetchLocation net st ip := by
      unfold lookup
      simp [h', h2]
    rw [hred]
    unfold fetchLocation
    simp only [hv, h2, hn, Bool.not_true, if_false, Bool.false_eq_true]
    exact mapHas_mapSet_self

theorem fetchLocation_result_error {net : Net} {st : GeoState}
    {ip : String} {e : String}
    (h : (fetchLocation net st ip).result = .error e) :
    isValidIp ip = true ∧ st.enableAPI = true ∧
      net ip = .transportError e := by
  unfold fetchLocation at h
  by_cases h1 : isValidIp ip
  · by_cases h2 : st.enableAPI
    · cases hn : net ip with
      | transportError msg =>
        simp [h1, h2, hn] at h
        exact ⟨h1, h2, by rw [h]⟩
      | body p =>
        cases p with
        | none => simp [h1, h2, hn] at h
        | some loc => simp [h1, h2, hn] at h
    · simp [h1, Bool.eq_false_iff.mpr h2] at h
  · simp [Bool.eq_false_iff.mpr h1] at h

theorem lookup_result_error {net : Net} {st : GeoState}
    {ip : String} {e : String}
    (h : (lookup net st ip).result = .error e) :
    isValidIp ip = true ∧ mapHas st.ipLocationMap ip = false ∧
      st.enableAPI = true ∧ net ip = .transportError e := by
  unfold lookup at h
  by_cases hm : mapHas st.ipLocationMap ip
  · cases hg : mapGet st.ipLocationMap ip
    · simp [hm, hg] at h
    · simp [hm, hg] at h
  · have hm' : mapHas st.ipLocationMap ip = false := Bool.eq_false_iff.mpr hm
    by_cases h2 : st.enableAPI
    · simp only [hm', Bool.false_eq_true, if_false, h2, Bool.not_true] at h
      obtain ⟨a, b, c⟩ := fetchLocation_result_error h
      exact ⟨a, hm', b, c⟩
    · simp [hm', Bool.eq_false_iff.mpr h2] at h

theorem lookup_invalid_absent (net : Net) {st : GeoState} {ip : String}
    (hv : isValidIp ip = false) (hm : mapHas st.ipLocationMap ip = false) :
    ∃ msg, lookup net st ip = ⟨st, .ok (.err msg), []⟩ := by
  unfold lookup fetchLocation
  by_cases h2 : st.enableAPI
  · exact ⟨"Invalid IP address.", by simp [hv, hm, h2]⟩
  · exact ⟨"Failed to get location", by simp [hm, Bool.eq_false_iff.mpr h2]⟩

theorem lookupAll_cons_state (net : Net) (st : GeoState) (ip : String)
    (rest : List String) :
    (lookupAll net st (ip :: rest)).state =
      (lookupAll net (lookup net st ip).state rest).state := rfl

theorem lookupAll_cons_netCalls (net : Net) (st : GeoState) (ip : String)
    (rest : List String) :
    (lookupAll net st (ip :: rest)).netCalls =
      (lookup net st ip).netCalls ++
        (lookupAll net (lookup net st ip).state rest).netCalls := rfl

theorem lookupAll_cons_result (net : Net) (st : GeoState) (ip : String)
    (rest : List String) :
    (lookupAll net st (ip :: rest)).result =
      match (lookup net st ip).result,
          (lookupAll net (lookup net st ip).state rest).result with
      | .ok v, .ok vs => .ok (v :: vs)
      | .error e, _ => .error e
      | .ok _, .error e => .error e := rfl

theorem lookupAll_grows {net : Net} {st : GeoState} {ips : List String}
    {k : String} (h : mapHas st.ipLocationMap k = true) :
    mapHas (lookupAll net st ips).state.ipLocationMap k = true := by
  induction ips generalizing st with
  | nil => exact h
  | cons ip rest ih => exact ih (lookup_grows h)

theorem lookupAll_enableAPI (net : Net) (st : GeoState) (ips : List String) :
    (lookupAll net st ips).state.enableAPI = st.enableAPI := by
  induction ips generalizing st with
  | nil => rfl
  | cons ip rest ih =>
    exact (ih (lookup net st ip).state).trans (lookup_enableAPI net st ip)

theorem lookupAll_new_valid {net : Net} {st : GeoState} {ips : List String}
    {k : String}
    (h : mapHas (lookupAll net st ips).state.ipLocationMap k = true) :
    mapHas st.ipLocationMap k = true ∨ isValidIp k = true := by
  induction ips generalizing st with
  | nil => exact Or.inl h
  | cons ip rest ih =>
    rcases ih h with h1 | hval
    · exact lookup_new_valid h1
    · exact Or.inr hval

theorem lookupAll_size_le (net : Net) (st : GeoState) (ips : List String) :
    size st ≤ size (lookupAll net st ips).state := by
  induction ips generalizing st with
  | nil => exact le_refl _
  | cons ip rest ih =>
    exact le_trans (lookup_size_le net st ip) (ih (lookup net st ip).state)

theorem lookupAll_adds {net : Net} {st : GeoState} {ips : List String}
    {ip : String} (h2 : st.enableAPI = true) (hmem : ip ∈ ips)
    (hv : isValidIp ip = true) (loc : Location)
    (hn : net ip = .body (some loc)) :
    mapHas (lookupAll net st ips).state.ipLocationMap ip = true := by
  induction ips generalizing st with
  | nil => cases hmem
  | cons ip0 rest ih =>
    rcases List.mem_cons.mp hmem with rfl | hmem'
    · rw [lookupAll_cons_state]
      exact lookupAll_grows (lookup_adds h2 hv loc hn)
    · exact ih ((lookup_enableAPI net st ip0).trans h2) hmem'

theorem lookupAll_result_error {net : Net} {st : GeoState}
    {ips : List String} {e : String}
    (h : (lookupAll net st ips).result = .error e) :
    ∃ ip ∈ ips, isValidIp ip = true ∧ mapHas st.ipLocationMap ip = false ∧
      net ip = .transportError e := by
  induction ips generalizing st with
  | nil => simp [lookupAll] at h
  | cons ip rest ih =>
    rw [lookupAll_cons_result] at h
    cases hr1 : (lookup net st ip).result with
    | error e1 =>
      rw [hr1] at h
      simp at h
      obtain ⟨hv, hm, h2, hn⟩ := lookup_result_error hr1
      rw [h] at hn
      exact ⟨ip, List.mem_cons_self ip rest, hv, hm, hn⟩
    | ok v =>
      rw [hr1] at h
      cases hr2 : (lookupAll net (lookup net st ip).state rest).result with
      | ok vs => rw [hr2] at h; simp at h
      | error e2 =>
        rw [hr2] at h
        simp at h
        subst h
        obtain ⟨ip', hmem, hv, hm, hn⟩ := ih hr2
        refine ⟨ip', List.mem_cons_of_mem _ hmem, hv, ?_, hn⟩
        cases hst : mapHas st.ipLocationMap ip'
        · rfl
        · have hgrow : mapHas (lookup net st ip).state.ipLocationMap ip' = true :=
            lookup_grows hst
          rw [hm] at hgrow
          cases hgrow

theorem lookupAll_ok_length {net : Net} {st : GeoState} {ips : List String}
    {vs : List LookupResult}
    (h : (lookupAll net st ips).result = .ok vs) :
    vs.length = ips.length := by
  induction ips generalizing st vs with
  | nil =>
    simp [lookupAll] at h
    simp [← h]
  | cons ip rest ih =>
    rw [lookupAll_cons_result] at h
    cases hr1 : (lookup net st ip).result with
    | error e1 => rw [hr1] at h; simp at h
    | ok v =>
      rw [hr1] at h
      cases hr2 : (lookupAll net (lookup net st ip).state rest).result with
      | error e2 => rw [hr2] at h; simp at h
      | ok vs' =>
        rw [hr2] at h
        simp at h
        rw [← h]
        simp [ih hr2]

theorem lookupAll_ok_of {net : Net} {st : GeoState} {ips : List String}
    (h : ∀ ip ∈ ips, ∀ e, net ip ≠ .transportError e) :
    ∃ vs, (lookupAll net st ips).result = .ok vs := by
  cases hres : (lookupAll net st ips).result with
  | ok vs => exact ⟨vs, rfl⟩
  | error e =>
    obtain ⟨ip, hmem, _, _, hn⟩ := lookupAll_result_error hres
    exact absurd hn (h ip hmem e)

theorem lookup_preserves_absent_invalid {net : Net} {st : GeoState}
    {ip k : String} (hk : isValidIp k = false)
    (hm : mapHas st.ipLocationMap k = false) :
    mapHas (lookup net st ip).state.ipLocationMap k = false := by
  cases hst : mapHas (lookup net st ip).state.ipLocationMap k
  · rfl
  · rcases lookup_new_valid hst with h1 | h1
    · rw [hm] at h1
      cases h1
    · rw [hk] at h1
      cases h1

theorem lookupAll_pos_err {net : Net} {st : GeoState} {ips : List String}
    {vs : List LookupResult}
    (hres : (lookupAll net st ips).result = .ok vs) :
    ∀ i ip, ips.get? i = some ip → isValidIp ip = false →
      mapHas st.ipLocationMap ip = false →
      ∃ msg, vs.get? i = some (.err msg) := by
  induction ips generalizing st vs with
  | nil =>
    intro i ip hi
    simp at hi
  | cons ip0 rest ih =>
    intro i ip hi hv hm
    rw [lookupAll_cons_result] at hres
    cases hr1 : (lookup net st ip0).result with
    | error e => rw [hr1] at hres; simp at hres
    | ok v =>
      rw [hr1] at hres
      cases hr2 : (lookupAll net (lookup net st ip0).state rest).result with
      | error e => rw [hr2] at hres; simp at hres
      | ok vs' =>
        rw [hr2] at hres
        simp only [Except.ok.injEq] at hres
        subst hres
        cases i with
        | zero =>
          simp only [List.get?] at hi
          injection hi with hi
          subst hi
          obtain ⟨msg, hlk⟩ := lookup_invalid_absent net hv hm
          rw [hlk] at hr1
          simp at hr1
          exact ⟨msg, by simp [← hr1]⟩
        | succ i' =>
          simp only [List.get?] at hi
          have hm1 : mapHas (lookup net st ip0).state.ipLocationMap ip = false :=
            lookup_preserves_absent_invalid hv hm
          obtain ⟨msg, hh⟩ := ih hr2 i' ip hi hv hm1
          exact ⟨msg, by simpa using hh⟩

theorem lookupAll_inert (net : Net) {ips : List String} :
    ∀ (st : GeoState),
    (∀ ip ∈ ips, isValidIp ip = false ∧
      mapHas st.ipLocationMap ip = false) →
    (lookupAll net st ips).state = st ∧
      (lookupAll net st ips).netCalls = [] ∧
      ∃ vs, (lookupAll net st ips).result = .ok vs := by
  induction ips with
  | nil => exact fun st _ => ⟨rfl, rfl, [], rfl⟩
  | cons ip0 rest ih =>
    intro st h
    obtain ⟨hv, hm⟩ := h ip0 (List.mem_cons_self ip0 rest)
    obtain ⟨msg, hlk⟩ := lookup_invalid_absent net hv hm
    have hrest := ih st fun ip hip => h ip (List.mem_cons_of_mem _ hip)
    refine ⟨?_, ?_, ?_⟩
    · rw [lookupAll_cons_state, hlk]
      exact hrest.1
    · rw [lookupAll_cons_netCalls, hlk]
      simpa using hrest.2.1
    · rw [lookupAll_cons_result, hlk]
      obtain ⟨vs, hvs⟩ := hrest.2.2
      exact ⟨.err msg :: vs, by simp [hvs]⟩

theorem mapHas_of_mapGet {m : List (String × Location)} {k : String}
    {l : Location} (h : mapGet m k = some l) : mapHas m k = true := by
  unfold mapGet at h
  cases hf : m.find? fun p => p.1 == k with
  | none => rw [hf] at h; cases h
  | some p =>
    have hpk0 := List.find?_some
      (p := fun q : String × Location => q.1 == k) hf
    have hpk : (p.1 == k) = true := hpk0
    exact mapHas_iff.mpr
      ⟨p, List.mem_of_find?_eq_some hf, beq_iff_eq.mp hpk⟩

/-! ## `mergeAndLookupLocations` branch lemmas -/

theorem merge_api_false {net : Net} {st : GeoState} {ips : List String}
    (h : st.enableAPI = false) :
    mergeAndLookupLocations net st ips =
      ⟨st, .ok (mapKeys st.ipLocationMap), [], []⟩ := by
  unfold mergeAndLookupLocations
  simp [h]

theorem merge_filter_nil {net : Net} {st : GeoState} {ips : List String}
    (h2 : st.enableAPI = true)
    (h : ips.filter (fun ip => !mapHas st.ipLocationMap ip) = []) :
    mergeAndLookupLocations net st ips =
      ⟨st, .ok (mapKeys st.ipLocationMap), [], []⟩ := by
  unfold mergeAndLookupLocations
  simp [h2, h]

theorem merge_filter_ne {net : Net} {st : GeoState} {ips : List String}
    (h2 : st.enableAPI = true)
    (h : ips.filter (fun ip => !mapHas st.ipLocationMap ip) ≠ []) :
    mergeAndLookupLocations net st ips =
      (let r := lookupAll net st
        (ips.filter fun ip => !mapHas st.ipLocationMap ip)
       match r.result with
       | .ok _ =>
         ⟨r.state, .ok (mapKeys r.state.ipLocationMap),
           ips.filter (fun ip => !mapHas st.ipLocationMap ip), r.netCalls⟩
       | .error e =>
         ⟨r.state, .error e,
           ips.filter (fun ip => !mapHas st.ipLocationMap ip), r.netCalls⟩) := by
  have hlen : (ips.filter fun ip => !mapHas st.ipLocationMap ip).length ≠ 0 :=
    fun hh => h (List.length_eq_zero.mp hh)
  unfold mergeAndLookupLocations
  simp [h2, hlen]

theorem merge_state_ne (net : Net) {st : GeoState} {ips : List String}
    (h2 : st.enableAPI = true)
    (hf : ips.filter (fun ip => !mapHas st.ipLocationMap ip) ≠ []) :
    (mergeAndLookupLocations net st ips).state =
      (lookupAll net st
        (ips.filter fun ip => !mapHas st.ipLocationMap ip)).state := by
  rw [merge_filter_ne h2 hf]
  cases hr : (lookupAll net st
      (ips.filter fun ip => !mapHas st.ipLocationMap ip)).result with
  | ok vs => simp only [hr]
  | error e => simp only [hr]

theorem merge_netCalls_ne (net : Net) {st : GeoState} {ips : List String}
    (h2 : st.enableAPI = true)
    (hf : ips.filter (fun ip => !mapHas st.ipLocationMap ip) ≠ []) :
    (mergeAndLookupLocations net st ips).netCalls =
      (lookupAll net st
        (ips.filter fun ip => !mapHas st.ipLocationMap ip)).netCalls := by
  rw [merge_filter_ne h2 hf]
  cases hr : (lookupAll net st
      (ips.filter fun ip => !mapHas st.ipLocationMap ip)).result with
  | ok vs => simp only [hr]
  | error e => simp only [hr]

theorem merge_result_ok_ne {net : Net} {st : GeoState} {ips : List String}
    {vs : List LookupResult} (h2 : st.enableAPI = true)
    (hf : ips.filter (fun ip => !mapHas st.ipLocationMap ip) ≠ [])
    (hr : (lookupAll net st
      (ips.filter fun ip => !mapHas st.ipLocationMap ip)).result = .ok vs) :
    (mergeAndLookupLocations net st ips).result =
      .ok (mapKeys (lookupAll net st
        (ips.filter fun ip => !mapHas st.ipLocationMap ip)).state.ipLocationMap) := by
  rw [merge_filter_ne h2 hf]
  simp only [hr]

theorem merge_state_cases (net : Net) (st : GeoState) (ips : List String) :
    (mergeAndLookupLocations net st ips).state = st ∨
    (mergeAndLookupLocations net st ips).state =
      (lookupAll net st
        (ips.filter fun ip => !mapHas st.ipLocationMap ip)).state := by
  by_cases h2 : st.enableAPI
  · by_cases hf : ips.filter (fun ip => !mapHas st.ipLocationMap ip) = []
    · rw [merge_filter_nil h2 hf]
      exact Or.inl rfl
    · rw [merge_filter_ne h2 hf]
      right
      cases hr : (lookupAll net st
          (ips.filter fun ip => !mapHas st.ipLocationMap ip)).result
      · simp [hr]
      · simp [hr]
  · rw [merge_api_false (Bool.eq_false_iff.mpr h2)]
    exact Or.inl rfl

theorem merge_grows {net : Net} {st : GeoState} {ips : List String}
    {k : String} (h : mapHas st.ipLocationMap k = true) :
    mapHas (mergeAndLookupLocations net st ips).state.ipLocationMap k = true := by
  rcases merge_state_cases net st ips with hc | hc <;> rw [hc]
  · exact h
  · exact lookupAll_grows h

theorem merge_size_le (net : Net) (st : GeoState) (ips : List String) :
    size st ≤ size (mergeAndLookupLocations net st ips).state := by
  rcases merge_state_cases net st ips with hc | hc
  · exact le_of_eq (congrArg size hc.symm)
  · rw [hc]
    exact lookupAll_size_le net st _

theorem merge_enableAPI (net : Net) (st : GeoState) (ips : List String) :
    (mergeAndLookupLocations net st ips).state.enableAPI = st.enableAPI := by
  rcases merge_state_cases net st ips with hc | hc
  · rw [hc]
  · rw [hc]
    exact lookupAll_enableAPI net st _

theorem merge_adds {net : Net} {st : GeoState} {ips : List String}
    {ip : String} (h2 : st.enableAPI = true) (hmem : ip ∈ ips)
    (hv : isValidIp ip = true) (loc : Location)
    (hn : net ip = .body (some loc)) :
    mapHas (mergeAndLookupLocations net st ips).state.ipLocationMap ip = true := by
  by_cases hhas : mapHas st.ipLocationMap ip
  · exact merge_grows hhas
  · have hhas' : mapHas st.ipLocationMap ip = false := Bool.eq_false_iff.mpr hhas
    have hmemF : ip ∈ ips.filter (fun q => !mapHas st.ipLocationMap q) :=
      List.mem_filter.mpr ⟨hmem, by simp [hhas']⟩
    have hFne : ips.filter (fun q => !mapHas st.ipLocationMap q) ≠ [] := by
      intro hF
      rw [hF] at hmemF
      cases hmemF
    rw [merge_filter_ne h2 hFne]
    cases hr : (lookupAll net st
        (ips.filter fun q => !mapHas st.ipLocationMap q)).result with
    | ok vs =>
      simp only [hr]
      exact lookupAll_adds h2 hmemF hv loc hn
    | error e =>
      simp only [hr]
      exact lookupAll_adds h2 hmemF hv loc hn

theorem merge_result_error {net : Net} {st : GeoState} {ips : List String}
    {e : String}
    (h : (mergeAndLookupLocations net st ips).result = .error e) :
    (lookupAll net st
      (ips.filter fun ip => !mapHas st.ipLocationMap ip)).result =
        .error e := by
  by_cases h2 : st.enableAPI
  · by_cases hf : ips.filter (fun ip => !mapHas st.ipLocationMap ip) = []
    · rw [merge_filter_nil h2 hf] at h
      simp at h
    · rw [merge_filter_ne h2 hf] at h
      cases hr : (lookupAll net st
          (ips.filter fun ip => !mapHas st.ipLocationMap ip)).result with
      | ok vs => simp [hr] at h
      | error e1 =>
        simp only [hr] at h
        injection h with h2
        subst h2
        rfl
  · rw [merge_api_false (Bool.eq_false_iff.mpr h2)] at h
    simp at h

theorem merge_result_keys {net : Net} {st : GeoState} {ips : List String}
    {ks : List String}
    (h : (mergeAndLookupLocations net st ips).result = .ok ks) :
    ks = mapKeys (mergeAndLookupLocations net st ips).state.ipLocationMap := by
  by_cases h2 : st.enableAPI
  · by_cases hf : ips.filter (fun ip => !mapHas st.ipLocationMap ip) = []
    · rw [merge_filter_nil h2 hf] at h ⊢
      simp at h
      simp [← h]
    · rw [merge_filter_ne h2 hf] at h ⊢
      cases hr : (lookupAll net st
          (ips.filter fun ip => !mapHas st.ipLocationMap ip)).result
      · simp [hr] at h
      · simp only [hr] at h ⊢
        simp at h
        simp [← h]
  · rw [merge_api_false (Bool.eq_false_iff.mpr h2)] at h ⊢
    simp at h
    simp [← h]

end IpGeolocator

/-! ## Loader lemmas -/

theorem mapKeys_cons (p : String × Location) (rest : List (String × Location)) :
    mapKeys (p :: rest) = p.1 :: mapKeys rest := rfl

theorem mapKeys_append (a b : List (String × Location)) :
    mapKeys (a ++ b) = mapKeys a ++ mapKeys b := by
  simp [mapKeys]

theorem mapGet_self_of_nodup {obj : List (String × Location)}
    (hnd : (mapKeys obj).Nodup) {k : String} {v : Location}
    (hmem : (k, v) ∈ obj) : mapGet obj k = some v := by
  induction obj with
  | nil => cases hmem
  | cons p rest ih =>
    rw [mapKeys_cons, List.nodup_cons] at hnd
    rcases List.mem_cons.mp hmem with heq | hmem'
    · rw [← heq]
      unfold mapGet
      rw [List.find?_cons_of_pos _ (by simp)]
      rfl
    · have hk : p.1 ≠ k := by
        rintro rfl
        exact hnd.1 (List.mem_map.mpr ⟨(p.1, v), hmem', rfl⟩)
      unfold mapGet
      rw [List.find?_cons_of_neg _ (by simp [hk])]
      exact ih hnd.2 hmem'

theorem mapSet_append_of_not_has {m : List (String × Location)} {k : String}
    (v : Location) (h : mapHas m k = false) : mapSet m k v = m ++ [(k, v)] := by
  unfold mapSet
  simp [h]

theorem loadFromObjectGo_eq (obj : List (String × Location)) :
    ∀ (pending acc : List (String × Location)),
    (∀ p ∈ pending, jsTrim p.1 = p.1 ∧ mapGet obj p.1 = some p.2) →
    (mapKeys (acc ++ pending)).Nodup →
    IpGeolocator.loadFromObjectGo obj pending acc = .ok (acc ++ pending) := by
  intro pending
  induction pending with
  | nil =>
    intro acc _ _
    simp [IpGeolocator.loadFromObjectGo]
  | cons p rest ih =>
    intro acc hvals hnd
    obtain ⟨htrim, hget⟩ := hvals p (List.mem_cons_self p rest)
    cases p with
    | mk k v =>
      unfold IpGeolocator.loadFromObjectGo
      simp only [htrim, hget]
      have hnotacc : mapHas acc k = false := by
        rw [mapHas_eq_false_iff]
        intro hkacc
        rw [mapKeys_append, List.nodup_append] at hnd
        exact hnd.2.2 hkacc (by simp [mapKeys_cons])
      rw [mapSet_append_of_not_has v hnotacc]
      have hrec := ih (acc ++ [(k, v)])
        (fun q hq => hvals q (List.mem_cons_of_mem _ hq))
        (by simpa [List.append_assoc] using hnd)
      simpa [List.append_assoc] using hrec

theorem loadFromObject_roundtrip {obj : List (String × Location)}
    (htrim : ∀ p ∈ obj, jsTrim p.1 = p.1) (hnd : (mapKeys obj).Nodup) :
    IpGeolocator.loadFromObject obj = .ok obj := by
  unfold IpGeolocator.loadFromObject
  have := loadFromObjectGo_eq obj obj []
    (fun p hp => ⟨htrim p hp, mapGet_self_of_nodup hnd hp⟩)
    (by simpa using hnd)
  simpa using this

theorem loadFromObjectGo_v0_keys {obj : List (String × Location)} :
    ∀ {pending acc m : List (String × Location)},
    IpGeolocatorV0.loadFromObjectGo obj pending acc = .ok m →
    ∀ {k}, mapHas m k = true → mapHas acc k = true ∨ mapHas obj k = true := by
  intro pending
  induction pending with
  | nil =>
    intro acc m h k hk
    simp [IpGeolocatorV0.loadFromObjectGo] at h
    subst h
    exact Or.inl hk
  | cons p rest ih =>
    intro acc m h k hk
    unfold IpGeolocatorV0.loadFromObjectGo at h
    cases hget : mapGet obj (jsTrim p.1) with
    | none =>
      simp only [hget] at h
      exact ih h hk
    | some loc =>
      simp only [hget] at h
      rcases ih h hk with hacc | hobj
      · rcases mapHas_mapSet.mp hacc with rfl | hacc'
        · exact Or.inr (IpGeolocator.mapHas_of_mapGet hget)
        · exact Or.inl hacc'
      · exact Or.inr hobj

theorem loadFromObjectGo_v0_total (obj : List (String × Location)) :
    ∀ (pending acc : List (String × Location)),
    ∃ m, IpGeolocatorV0.loadFromObjectGo obj pending acc = .ok m := by
  intro pending
  induction pending with
  | nil => exact fun acc => ⟨acc, rfl⟩
  | cons p rest ih =>
    intro acc
    unfold IpGeolocatorV0.loadFromObjectGo
    cases hget : mapGet obj (jsTrim p.1) with
    | none =>
      simp only [hget]
      exact ih acc
    | some loc =>
      simp only [hget]
      exact ih (mapSet acc (jsTrim p.1) loc)

theorem loadFromObjectGo_err {obj : List (String × Location)} :
    ∀ {pending : List (String × Location)},
    (∃ p ∈ pending, mapGet obj (jsTrim p.1) = none) →
    ∀ acc, ∃ e, IpGeolocator.loadFromObjectGo obj pending acc = .error e := by
  intro pending
  induction pending with
  | nil =>
    rintro ⟨p, hp, _⟩
    cases hp
  | cons q rest ih =>
    rintro ⟨p, hp, hnone⟩ acc
    unfold IpGeolocator.loadFromObjectGo
    cases hget : mapGet obj (jsTrim q.1) with
    | none =>
      simp only [hget]
      exact ⟨_, rfl⟩
    | some loc =>
      simp only [hget]
      rcases List.mem_cons.mp hp with rfl | hp'
      · rw [hget] at hnone
        cases hnone
      · exact ih ⟨p, hp', hnone⟩ _

/-! ## Invariants of sequences of public operations -/

theorem applyOp_grows {net : Net} {st : GeoState} {op : CacheOp} {k : String}
    (h : mapHas st.ipLocationMap k = true) :
    mapHas (applyOp net st op).ipLocationMap k = true := by
  cases op with
  | lookupOp ip => exact IpGeolocator.lookup_grows h
  | lookupAllOp ips => exact IpGeolocator.lookupAll_grows h
  | mergeOp ips => exact IpGeolocator.merge_grows h
  | saveOp => exact h

theorem applyOp_size_le (net : Net) (st : GeoState) (op : CacheOp) :
    IpGeolocator.size st ≤ IpGeolocator.size (applyOp net st op) := by
  cases op with
  | lookupOp ip => exact IpGeolocator.lookup_size_le net st ip
  | lookupAllOp ips => exact IpGeolocator.lookupAll_size_le net st ips
  | mergeOp ips => exact IpGeolocator.merge_size_le net st ips
  | saveOp => exact le_refl _

theorem applyOps_grows {net : Net} {st : GeoState} {ops : List CacheOp}
    {k : String} (h : mapHas st.ipLocationMap k = true) :
    mapHas (applyOps net st ops).ipLocationMap k = true := by
  induction ops generalizing st with
  | nil => exact h
  | cons op rest ih => exact ih (applyOp_grows h)

theorem applyOps_size_le (net : Net) (st : GeoState) (ops : List CacheOp) :
    IpGeolocator.size st ≤ IpGeolocator.size (applyOps net st ops) := by
  induction ops generalizing st with
  | nil => exact le_refl _
  | cons op rest ih =>
    exact le_trans (applyOp_size_le net st op) (ih (applyOp net st op))

/-! ## Concrete instances used by witnesses and counterexamples -/

/-- An instance in API-augmented mode with an empty mapping. -/
def apiState : GeoState := ⟨[], "data/geoip.json", "testkey", true, none⟩

/-- An instance in cache-backed mode holding one loaded entry. -/
def noApiState : GeoState :=
  ⟨[("1.2.3.4", sampleLoc)], "data/geoip.json", "", false, none⟩

/-- A transport oracle whose response stream always fails. -/
def downNet : Net := fun _ => .transportError "socket hang up"

/-- A transport oracle always answering with a body that fails to parse. -/
def badBodyNet : Net := fun _ => .body none

/-- A transport oracle always answering with a parseable location. -/
def goodNet : Net := fun _ => .body (some sampleLoc)

/-! ## Claim theorems -/

/-- C5: for every input string, `fetchLocation` reaches the transport layer
only if the string matches the dotted-quad regex and the API mode is
enabled; a syntax failure returns the `Invalid IP address.` error value and
a disabled API returns the `API disabled.` error value, in both cases with
zero network calls. -/
theorem c5_fetch_guards (net : Net) (st : GeoState) (ip : String) :
    (IpGeolocator.isValidIp ip = false →
      IpGeolocator.fetchLocation net st ip =
        ⟨st, .ok (.err "Invalid IP address."), []⟩) ∧
    (IpGeolocator.isValidIp ip = true → st.enableAPI = false →
      IpGeolocator.fetchLocation net st ip =
        ⟨st, .ok (.err "API disabled."), []⟩) ∧
    ((IpGeolocator.fetchLocation net st ip).netCalls ≠ [] →
      IpGeolocator.isValidIp ip = true ∧ st.enableAPI = true) := by
  refine ⟨?_, ?_, ?_⟩
  · intro h
    unfold IpGeolocator.fetchLocation
    simp [h]
  · intro h1 h2
    unfold IpGeolocator.fetchLocation
    simp [h1, h2]
  · intro h
    by_cases h1 : IpGeolocator.isValidIp ip
    · by_cases h2 : st.enableAPI
      · exact ⟨h1, h2⟩
      · exfalso
        apply h
        unfold IpGeolocator.fetchLocation
        simp [h1, Bool.eq_false_iff.mpr h2]
    · exfalso
      apply h
      unfold IpGeolocator.fetchLocation
      simp [Bool.eq_false_iff.mpr h1]

/-- Witness for C5: `fetchLocation` on `"999.1"` (too few groups) returns
the `Invalid IP address.` error value with zero transport calls. -/
theorem c5_fetch_guards_witness :
    IpGeolocator.fetchLocation badBodyNet apiState "999.1" =
      ⟨apiState, .ok (.err "Invalid IP address."), []⟩ :=
  (c5_fetch_guards badBodyNet apiState "999.1").1 (by decide)

/-- C6: with the API disabled, `lookup` on any key absent from the mapping
returns the `Failed to get location` error value (the NotFound outcome),
regardless of the key's syntactic validity, with zero network calls. -/
theorem c6_noapi_miss_notfound (net : Net) (st : GeoState) (ip : String)
    (h1 : st.enableAPI = false) (h2 : mapHas st.ipLocationMap ip = false) :
    IpGeolocator.lookup net st ip =
      ⟨st, .ok (.err "Failed to get location"), []⟩ := by
  unfold IpGeolocator.lookup
  simp [h1, h2]

/-- Witness for C6 at the syntactically valid absent key `"5.6.7.8"`. -/
theorem c6_noapi_miss_notfound_witness :
    IpGeolocator.lookup goodNet noApiState "5.6.7.8" =
      ⟨noApiState, .ok (.err "Failed to get location"), []⟩ :=
  c6_noapi_miss_notfound goodNet noApiState "5.6.7.8" rfl (by decide)

/-- C7: construction on an absent data file never throws, for any mode and
environment; moreover, with the API enabled and the environment credential
missing or empty, construction completes normally and records the
initialization fault, observable through `hasError`/`getError`. -/
theorem c7_construction_fault (dataFilePath : String) (enableAPI : Bool)
    (env : Option String) :
    (∃ st, IpGeolocator.mkIpGeolocator dataFilePath enableAPI env .absent =
      .ok st) ∧
    ((env = none ∨ env = some "") →
      ∃ st, IpGeolocator.mkIpGeolocator dataFilePath true env .absent =
          .ok st ∧
        IpGeolocator.hasError st = true ∧
        IpGeolocator.getError st =
          some "GEOIP_API_KEY environment variable not set") := by
  constructor
  · cases hload : IpGeolocator.load enableAPI env FileContent.absent with
    | error e =>
      exfalso
      unfold IpGeolocator.load at hload
      by_cases hc : (enableAPI && (env == none || env == some "")) = true
      · simp [hc] at hload
      · simp [hc] at hload
    | ok t =>
      obtain ⟨e0, key, m⟩ := t
      exact ⟨_, by unfold IpGeolocator.mkIpGeolocator; rw [hload]⟩
  · rintro hmiss
    have hc : (true && (env == none || env == some "")) = true := by
      rcases hmiss with rfl | rfl <;> simp
    refine ⟨⟨[], dataFilePath, "", true,
      some "GEOIP_API_KEY environment variable not set"⟩, ?_, rfl, rfl⟩
    unfold IpGeolocator.mkIpGeolocator IpGeolocator.load
    simp [hc]

/-- Witness for C7: API mode requested with no credential in the
environment and no data file present. -/
theorem c7_construction_fault_witness :
    ∃ st, IpGeolocator.mkIpGeolocator "data/geoip.json" true none .absent =
        .ok st ∧
      IpGeolocator.hasError st = true ∧
      IpGeolocator.getError st =
        some "GEOIP_API_KEY environment variable not set" :=
  (c7_construction_fault "data/geoip.json" true none).2 (Or.inl rfl)

/-- C8: `mergeAndLookupLocations` passes to `lookupAll` exactly the subset
of the batch not already present (and nothing at all in cache-backed mode,
where it also performs no network calls and leaves the state unchanged),
and whenever it returns a key list it is the full key set of the mapping
after the operation. -/
theorem c8_merge_contract (net : Net) (st : GeoState) (ips : List String) :
    ((IpGeolocator.mergeAndLookupLocations net st ips).lookedUp =
      if st.enableAPI then
        ips.filter (fun ip => !mapHas st.ipLocationMap ip)
      else []) ∧
    (st.enableAPI = false →
      IpGeolocator.mergeAndLookupLocations net st ips =
        ⟨st, .ok (mapKeys st.ipLocationMap), [], []⟩) ∧
    (∀ ks, (IpGeolocator.mergeAndLookupLocations net st ips).result = .ok ks →
      ks = mapKeys (IpGeolocator.mergeAndLookupLocations net st ips).state.ipLocationMap) := by
  refine ⟨?_, ?_, fun ks h => IpGeolocator.merge_result_keys h⟩
  · by_cases h2 : st.enableAPI
    · rw [if_pos h2]
      by_cases hf : ips.filter (fun ip => !mapHas st.ipLocationMap ip) = []
      · rw [IpGeolocator.merge_filter_nil h2 hf, hf]
      · rw [IpGeolocator.merge_filter_ne h2 hf]
        cases hr : (IpGeolocator.lookupAll net st
            (ips.filter fun ip => !mapHas st.ipLocationMap ip)).result
        · simp only [hr]
        · simp only [hr]
    · have h2' : st.enableAPI = false := Bool.eq_false_iff.mpr h2
      rw [if_neg h2, IpGeolocator.merge_api_false h2']
  · intro h2
    exact IpGeolocator.merge_api_false h2

/-- Witness for C8 in cache-backed mode: no lookups, no network calls, the
state untouched, and the full pre-existing key set returned. -/
theorem c8_merge_contract_witness :
    IpGeolocator.mergeAndLookupLocations goodNet noApiState ["9.9.9.9"] =
      ⟨noApiState, .ok (mapKeys noApiState.ipLocationMap), [], []⟩ :=
  (c8_merge_contract goodNet noApiState ["9.9.9.9"]).2.1 rfl

/-- C1 counterexample: a transport-level failure on one constituent lookup
is not delivered as an error value in its position — it rejects (throws to
the caller of) the whole batch. -/
theorem c1_transport_rejects_batch :
    (IpGeolocator.lookupAll downNet apiState ["1.2.3.4"]).result =
      .error "socket hang up" := rfl

/-- C1 (amended): when no constituent lookup suffers a transport-level
failure, `lookupAll` resolves with a result list positionally aligned with
the input, and every per-key failure (here: a syntactically invalid,
uncached key) is delivered as an error value in its own position without
aborting the batch. -/
theorem c1_batch_alignment (net : Net) (st : GeoState) (ips : List String)
    (h : ∀ ip ∈ ips, ∀ e, net ip ≠ .transportError e) :
    ∃ rs, (IpGeolocator.lookupAll net st ips).result = .ok rs ∧
      rs.length = ips.length ∧
      ∀ i ip, ips.get? i = some ip → IpGeolocator.isValidIp ip = false →
        mapHas st.ipLocationMap ip = false →
        ∃ msg, rs.get? i = some (.err msg) := by
  obtain ⟨rs, hrs⟩ := IpGeolocator.lookupAll_ok_of h
  exact ⟨rs, hrs, IpGeolocator.lookupAll_ok_length hrs,
    fun i ip hi hv hm => IpGeolocator.lookupAll_pos_err hrs i ip hi hv hm⟩

/-- Witness for C1 (amended): a two-element batch of a valid address whose
response fails to parse and an invalid address; the batch resolves with two
positionally aligned outcomes. -/
theorem c1_batch_alignment_witness :
    ∃ rs, (IpGeolocator.lookupAll badBodyNet apiState
        ["1.2.3.4", "999.1"]).result = .ok rs ∧
      rs.length = (["1.2.3.4", "999.1"] : List String).length ∧
      ∀ i ip, (["1.2.3.4", "999.1"] : List String).get? i = some ip →
        IpGeolocator.isValidIp ip = false →
        mapHas apiState.ipLocationMap ip = false →
        ∃ msg, rs.get? i = some (.err msg) :=
  c1_batch_alignment badBodyNet apiState ["1.2.3.4", "999.1"]
    (fun ip _ e he => by simp [badBodyNet] at he)

/-- C2: the claim matches the part_000 loaders, whose falsiness guard skips
an entry with an unresolvable (undefined) Location and still loads the
remaining entries; the part_001 loaders dereference `location.latitude`
without the guard and throw instead, making the load fatal. -/
theorem c2_missing_location_entry :
    IpGeolocatorV0.loadFromArray
        [[(" 1.2.3.4 ", sampleLoc)], [("5.6.7.8", sampleLoc2)]] =
      .ok [("5.6.7.8", sampleLoc2)] ∧
    IpGeolocator.loadFromArray
        [[(" 1.2.3.4 ", sampleLoc)], [("5.6.7.8", sampleLoc2)]] =
      .error "TypeError: cannot read latitude of undefined" ∧
    IpGeolocatorV0.loadFromObject [(" 9.9.9.9 ", sampleLoc)] = .ok [] ∧
    IpGeolocator.loadFromObject [(" 9.9.9.9 ", sampleLoc)] =
      .error "TypeError: cannot read latitude of undefined" :=
  ⟨rfl, rfl, rfl, rfl⟩

/-- C3 counterexample: with a remote response body that fails to parse,
nothing is merged, so the same batch fetches `"1.2.3.4"` again on the
second `mergeAndLookupLocations` call — the second call performs a fetch,
not zero. -/
theorem c3_refetch_on_parse_failure :
    (IpGeolocator.mergeAndLookupLocations badBodyNet apiState
        ["1.2.3.4"]).netCalls = ["1.2.3.4"] ∧
    (IpGeolocator.mergeAndLookupLocations badBodyNet
        (IpGeolocator.mergeAndLookupLocations badBodyNet apiState
          ["1.2.3.4"]).state ["1.2.3.4"]).netCalls = ["1.2.3.4"] :=
  ⟨rfl, rfl⟩

/-- C3 (amended): in API-augmented mode, provided every valid uncached
address of the batch gets a parseable remote response, the second identical
`mergeAndLookupLocations` call performs zero fetches, leaves the mapping
unchanged, and returns a key set identical to the first call's result. -/
theorem c3_merge_idempotent (net : Net) (st : GeoState) (ips : List String)
    (hapi : st.enableAPI = true)
    (hok : ∀ ip ∈ ips, mapHas st.ipLocationMap ip = false →
      IpGeolocator.isValidIp ip = true → ∃ loc, net ip = .body (some loc)) :
    (IpGeolocator.mergeAndLookupLocations net
      (IpGeolocator.mergeAndLookupLocations net st ips).state ips).netCalls
        = [] ∧
    (IpGeolocator.mergeAndLookupLocations net
      (IpGeolocator.mergeAndLookupLocations net st ips).state ips).state =
        (IpGeolocator.mergeAndLookupLocations net st ips).state ∧
    (IpGeolocator.mergeAndLookupLocations net st ips).result =
      .ok (mapKeys
        (IpGeolocator.mergeAndLookupLocations net st ips).state.ipLocationMap) ∧
    (IpGeolocator.mergeAndLookupLocations net
      (IpGeolocator.mergeAndLookupLocations net st ips).state ips).result =
        (IpGeolocator.mergeAndLookupLocations net st ips).result := by
  have hres1 : (IpGeolocator.mergeAndLookupLocations net st ips).result =
      .ok (mapKeys
        (IpGeolocator.mergeAndLookupLocations net st ips).state.ipLocationMap) := by
    cases hr : (IpGeolocator.mergeAndLookupLocations net st ips).result with
    | ok ks =>
      exact congrArg Except.ok (IpGeolocator.merge_result_keys hr)
    | error e =>
      exfalso
      obtain ⟨ip, hmemF, hv, hm, hn⟩ :=
        IpGeolocator.lookupAll_result_error
          (IpGeolocator.merge_result_error hr)
      obtain ⟨loc, hnet⟩ := hok ip (List.mem_filter.mp hmemF).1 hm hv
      rw [hnet] at hn
      cases hn
  have hapi1 : (IpGeolocator.mergeAndLookupLocations net st ips).state.enableAPI
      = true := (IpGeolocator.merge_enableAPI net st ips).trans hapi
  have hF2 : ∀ ip ∈ ips.filter (fun q =>
      !mapHas (IpGeolocator.mergeAndLookupLocations net st ips).state.ipLocationMap q),
      IpGeolocator.isValidIp ip = false ∧
      mapHas (IpGeolocator.mergeAndLookupLocations net st ips).state.ipLocationMap ip
        = false := by
    intro ip hmemF2
    obtain ⟨hmem, hfilt⟩ := List.mem_filter.mp hmemF2
    have hnothas1 : mapHas
        (IpGeolocator.mergeAndLookupLocations net st ips).state.ipLocationMap ip
          = false := by
      simpa using hfilt
    refine ⟨?_, hnothas1⟩
    cases hv : IpGeolocator.isValidIp ip with
    | false => rfl
    | true =>
      exfalso
      have hnothas0 : mapHas st.ipLocationMap ip = false := by
        cases hh : mapHas st.ipLocationMap ip
        · rfl
        · have hgrow : mapHas
              (IpGeolocator.mergeAndLookupLocations net st ips).state.ipLocationMap ip
                = true := IpGeolocator.merge_grows hh
          rw [hnothas1] at hgrow
          cases hgrow
      obtain ⟨loc, hnet⟩ := hok ip hmem hnothas0 hv
      have hadd := IpGeolocator.merge_adds hapi hmem hv loc hnet
      rw [hnothas1] at hadd
      cases hadd
  by_cases hF2nil : ips.filter (fun q =>
      !mapHas (IpGeolocator.mergeAndLookupLocations net st ips).state.ipLocationMap q)
        = []
  · rw [IpGeolocator.merge_filter_nil hapi1 hF2nil]
    exact ⟨rfl, rfl, hres1, by rw [hres1]⟩
  · obtain ⟨hst2, hcalls2, vs, hvs⟩ := IpGeolocator.lookupAll_inert net
      (IpGeolocator.mergeAndLookupLocations net st ips).state hF2
    have hst2' := IpGeolocator.merge_state_ne net hapi1 hF2nil
    have hcalls2' := IpGeolocator.merge_netCalls_ne net hapi1 hF2nil
    have hres2 := IpGeolocator.merge_result_ok_ne hapi1 hF2nil hvs
    refine ⟨?_, ?_, hres1, ?_⟩
    · rw [hcalls2', hcalls2]
    · rw [hst2', hst2]
    · rw [hres2, hst2, hres1]

/-- Witness for C3 (amended): a fresh API-mode instance, a singleton batch,
and a provider answering with a parseable location. -/
theorem c3_merge_idempotent_witness :
    (IpGeolocator.mergeAndLookupLocations goodNet
      (IpGeolocator.mergeAndLookupLocations goodNet apiState
        ["1.2.3.4"]).state ["1.2.3.4"]).netCalls = [] ∧
    (IpGeolocator.mergeAndLookupLocations goodNet
      (IpGeolocator.mergeAndLookupLocations goodNet apiState
        ["1.2.3.4"]).state ["1.2.3.4"]).state =
      (IpGeolocator.mergeAndLookupLocations goodNet apiState
        ["1.2.3.4"]).state ∧
    (IpGeolocator.mergeAndLookupLocations goodNet apiState
        ["1.2.3.4"]).result =
      .ok (mapKeys (IpGeolocator.mergeAndLookupLocations goodNet apiState
        ["1.2.3.4"]).state.ipLocationMap) ∧
    (IpGeolocator.mergeAndLookupLocations goodNet
      (IpGeolocator.mergeAndLookupLocations goodNet apiState
        ["1.2.3.4"]).state ["1.2.3.4"]).result =
      (IpGeolocator.mergeAndLookupLocations goodNet apiState
        ["1.2.3.4"]).result :=
  c3_merge_idempotent goodNet apiState ["1.2.3.4"] rfl
    (fun _ _ _ _ => ⟨sampleLoc, rfl⟩)

/-- C4: saving the mapping and constructing a fresh instance on the same
path reproduces an identical in-memory mapping, for any mapping whose keys
are trimmed and unique (as every mapping built from valid entries is) and
any construction mode whose credential requirement is satisfied. -/
theorem c4_save_load_roundtrip (st : GeoState) (dataFilePath : String)
    (enableAPI : Bool) (env : Option String)
    (htrim : ∀ p ∈ st.ipLocationMap, jsTrim p.1 = p.1)
    (hnd : (mapKeys st.ipLocationMap).Nodup)
    (hcred : (enableAPI && (env == none || env == some "")) = false) :
    ∃ st', IpGeolocator.mkIpGeolocator dataFilePath enableAPI env
        (.parsed (IpGeolocator.save st)) = .ok st' ∧
      st'.ipLocationMap = st.ipLocationMap := by
  unfold IpGeolocator.mkIpGeolocator IpGeolocator.load IpGeolocator.save
  simp only [hcred, Bool.false_eq_true, if_false,
    loadFromObject_roundtrip htrim hnd, Except.map]
  exact ⟨_, rfl, rfl⟩

/-- A sample two-entry mapping used by the C4 witness. -/
def c4State : GeoState :=
  ⟨[("1.2.3.4", sampleLoc), ("5.6.7.8", sampleLoc2)], "data/geoip.json",
    "", false, none⟩

/-- Witness for C4: a concrete two-entry mapping saved and reloaded by a
fresh cache-backed instance. -/
theorem c4_save_load_roundtrip_witness :
    ∃ st', IpGeolocator.mkIpGeolocator "data/geoip.json" false none
        (.parsed (IpGeolocator.save c4State)) = .ok st' ∧
      st'.ipLocationMap = c4State.ipLocationMap :=
  c4_save_load_roundtrip c4State "data/geoip.json" false none
    (by decide) (by decide) (by decide)

/-- C9: over any sequence of public operations (`lookup`, `lookupAll`,
`mergeAndLookupLocations`, `save`), the key set only grows, `size` never
decreases, and a key present before still maps to some full Location
record afterwards. -/
theorem c9_mapping_monotone (net : Net) (st : GeoState) (ops : List CacheOp)
    (k : String) (l : Location) :
    (mapHas st.ipLocationMap k = true →
      mapHas (applyOps net st ops).ipLocationMap k = true) ∧
    IpGeolocator.size st ≤ IpGeolocator.size (applyOps net st ops) ∧
    (mapGet st.ipLocationMap k = some l →
      ∃ l', mapGet (applyOps net st ops).ipLocationMap k = some l') :=
  ⟨fun h => applyOps_grows h, applyOps_size_le net st ops,
    fun h => mapGet_isSome_of_mapHas
      (applyOps_grows (IpGeolocator.mapHas_of_mapGet h))⟩

/-- Witness for C9: a merge followed by a save on a one-entry cache-backed
instance keeps the pre-existing key and never shrinks the mapping. -/
theorem c9_mapping_monotone_witness :
    mapHas (applyOps goodNet noApiState
      [CacheOp.mergeOp ["5.6.7.8"], CacheOp.saveOp]).ipLocationMap
        "1.2.3.4" = true ∧
    IpGeolocator.size noApiState ≤ IpGeolocator.size (applyOps goodNet
      noApiState [CacheOp.mergeOp ["5.6.7.8"], CacheOp.saveOp]) ∧
    ∃ l', mapGet (applyOps goodNet noApiState
      [CacheOp.mergeOp ["5.6.7.8"], CacheOp.saveOp]).ipLocationMap
        "1.2.3.4" = some l' := by
  have h := c9_mapping_monotone goodNet noApiState
    [CacheOp.mergeOp ["5.6.7.8"], CacheOp.saveOp] "1.2.3.4" sampleLoc
  exact ⟨h.1 rfl, h.2.1, h.2.2 rfl⟩

/-- C10 counterexample: when the trimmed form of a whitespace-bearing key
occurs in the file as its own key with the same Location, loading does
produce an entry associating the trimmed key with that key's Location (the
value retrieved at the trimmed key is not undefined). -/
theorem c10_trimmed_key_collision :
    jsTrim " 1.2.3.4 " = "1.2.3.4" ∧
    (" 1.2.3.4 " : String) ≠ "1.2.3.4" ∧
    IpGeolocatorV0.loadFromObject
        [(" 1.2.3.4 ", sampleLoc), ("1.2.3.4", sampleLoc)] =
      .ok [("1.2.3.4", sampleLoc)] ∧
    IpGeolocator.loadFromObject
        [(" 1.2.3.4 ", sampleLoc), ("1.2.3.4", sampleLoc)] =
      .ok [("1.2.3.4", sampleLoc)] ∧
    mapGet [("1.2.3.4", sampleLoc)] "1.2.3.4" = some sampleLoc :=
  ⟨by decide, by decide, rfl, rfl, rfl⟩

/-- C10 (amended): for an object-shape file containing a key whose trimmed
form is not itself a key of the file, the part_000 loader produces no
entry at the trimmed key (its Location is unrecoverable), and the part_001
loader throws. -/
theorem c10_trimmed_key_unrecoverable (obj : List (String × Location))
    (k : String) (v : Location) (hmem : (k, v) ∈ obj)
    (habs : jsTrim k ∉ mapKeys obj) :
    (∀ m, IpGeolocatorV0.loadFromObject obj = .ok m →
      mapHas m (jsTrim k) = false) ∧
    ∃ e, IpGeolocator.loadFromObject obj = .error e := by
  have hget : mapGet obj (jsTrim k) = none := by
    cases hg : mapGet obj (jsTrim k) with
    | none => rfl
    | some loc =>
      exact absurd
        (mapHas_iff_mem.mp (IpGeolocator.mapHas_of_mapGet hg)) habs
  constructor
  · intro m hm
    cases hh : mapHas m (jsTrim k) with
    | false => rfl
    | true =>
      rcases loadFromObjectGo_v0_keys hm hh with hacc | hobj
      · simp [mapHas] at hacc
      · exact absurd (mapHas_iff_mem.mp hobj) habs
  · obtain ⟨e, he⟩ := loadFromObjectGo_err ⟨(k, v), hmem, hget⟩ []
    exact ⟨e, he⟩

/-- Witness for C10 (amended): a one-entry file whose sole key carries
whitespace — nothing is recoverable at the trimmed key in part_000, and
part_001 throws. -/
theorem c10_trimmed_key_unrecoverable_witness :
    (∀ m, IpGeolocatorV0.loadFromObject [(" 9.8.7.6 ", sampleLoc2)] = .ok m →
      mapHas m (jsTrim " 9.8.7.6 ") = false) ∧
    ∃ e, IpGeolocator.loadFromObject [(" 9.8.7.6 ", sampleLoc2)] =
      .error e :=
  c10_trimmed_key_unrecoverable [(" 9.8.7.6 ", sampleLoc2)] " 9.8.7.6 "
    sampleLoc2 (List.mem_cons_self _ _) (by decide)
